import Mathlib

/-!
Verification of the route-planning core of the Geekhathon2025 repository
(`src/routePlanning/dynamic_route_optimizer.py` and
`src/routePlanning/route_calculator_lambda.py`).

Modelling conventions used by the shallow embedding below:

* DynamoDB records become structures.  Stop identifiers and request /
  vehicle identifiers are natural numbers (they are opaque tokens in the
  source; only equality of identifiers matters anywhere).
* `requestedPickupAt` holds an instant in epoch seconds (`Option Int`);
  `none` models a record without a usable pickup instant.  The value
  `datetime.fromtimestamp(0)` used by the source as the sort default
  becomes the instant `0`.
* The stop store (`get_stop_coords`, a DynamoDB table lookup) is an
  external collaborator; it is passed as a parameter
  `coords : Nat → Option Coord`, where `none` models a missing stop or the
  `(0, 0)` sentinel that the source maps to `None`.
* Python floats become rationals.  The Euclidean distance helper
  `_calculate_distance` computes a square root, which is irrational in
  general, so the metric is a parameter `dist : Coord → Coord → ℚ`; no
  claim below depends on its value, and all assignment theorems hold for
  every metric.
* Python's `float('inf')` (the initial `min_cost`, and the cost of a
  request with unresolvable coordinates) becomes `none : Option ℚ`
  together with the comparison `costLt`, which mirrors IEEE `<` on
  `{finite, +inf}`.
* Python's `sorted` (a stable comparison sort) becomes
  `List.insertionSort`, which is stable and total on the key orders used
  by the source.
-/

set_option maxHeartbeats 1000000
set_option linter.unusedVariables false

namespace RouteOpt

/-- A coordinate pair `[longitude, latitude]` as produced by
`get_stop_coords`. -/
abbrev Coord := ℚ × ℚ

/-- A ride request record (`requests` table item), after the pickup-instant
conversion performed at the top of `get_requests`. -/
structure Request where
  requestId : Nat
  originStopId : Nat
  destStopId : Nat
  requestedPickupAt : Option Int
  deriving DecidableEq

/-- A vehicle record (`vehicles` table item).  `capacity` is `none` when
the record has no `capacity` attribute (the source then defaults to 20 via
`vehicle.get('capacity', 20)`). -/
structure Vehicle where
  vehicleId : Nat
  capacity : Option Nat
  longitude : ℚ
  latitude : ℚ
  deriving DecidableEq

/-- `vehicle.get('capacity', 20)`. -/
def Vehicle.cap (v : Vehicle) : Nat := v.capacity.getD 20

/-! ### `get_requests` time filter (source lines 21–57)

The DynamoDB scan and the string-to-datetime conversion are external
input; the function below receives the already-converted request list and
mirrors the filtering block (lines 38–57).  The final
`elif not start_time and not end_time` arm of the source is unreachable
(the block is guarded by `if start_time or end_time`) and is kept as the
dead `| none, none` arm. -/
def get_requests (requests : List Request) (start_time end_time : Option Int) :
    List Request :=
  if start_time.isSome || end_time.isSome then
    requests.filter fun req =>
      match req.requestedPickupAt with
      | none => false
      | some t =>
        match start_time, end_time with
        | some s, some e => decide (t ≥ s) && decide (t ≤ e)
        | some s, none => decide (t ≥ s)
        | none, some e => decide (t ≤ e)
        | none, none => true
  else requests

/-! ### Feasibility checks (source lines 114–142) -/

/-- `_violates_waiting_time` (source lines 114–128). -/
def violates_waiting_time (request : Request) (current_requests : List Request)
    (max_wait_minutes : Int) : Bool :=
  match request.requestedPickupAt with
  | none => false
  | some request_dt =>
    current_requests.any fun existing =>
      match existing.requestedPickupAt with
      | none => false
      | some existing_dt => decide (|request_dt - existing_dt| > max_wait_minutes * 60)

/-- `_violates_travel_duration` (source lines 130–142): the estimated
duration is `(len(current_requests) + 1) * 2 * 3` minutes.  The `request`
argument is kept to mirror the source signature; the estimate only uses
the list length. -/
def violates_travel_duration (request : Request) (current_requests : List Request)
    (max_travel_minutes : Int) : Bool :=
  if current_requests.isEmpty then false
  else decide ((((current_requests.length : Int) + 1) * 2) * 3 > max_travel_minutes)

/-! ### Cost model (source lines 144–178 and 659–753) -/

/-- `_calculate_geo_clustering_bonus` (source lines 726–753).  The loop
accumulates `-0.2` / `-0.2` / `-0.1` for every already-assigned request
matching each sharing condition. -/
def calculate_geo_clustering_bonus (request : Request)
    (current_requests : List Request) : ℚ :=
  if current_requests.isEmpty then 0
  else
    current_requests.foldl
      (fun shared_stops_bonus existing =>
        let b1 := if request.originStopId = existing.originStopId
          then shared_stops_bonus - 1/5 else shared_stops_bonus
        let b2 := if request.destStopId = existing.destStopId
          then b1 - 1/5 else b1
        if request.originStopId = existing.destStopId
            ∨ request.destStopId = existing.originStopId
          then b2 - 1/10 else b2)
      0

/-- The per-assigned-request contribution realised by the loop body of
`_calculate_geo_clustering_bonus`. -/
def geoContrib (request existing : Request) : ℚ :=
  (if request.originStopId = existing.originStopId then -(1/5) else 0)
  + (if request.destStopId = existing.destStopId then -(1/5) else 0)
  + (if request.originStopId = existing.destStopId
        ∨ request.destStopId = existing.originStopId then -(1/10) else 0)

/-- The stop-sharing bonus as claim C5 words it: each of the three sharing
conditions contributes its flat amount at most once, no matter how many
assigned requests match it. -/
def geo_clustering_bonus_claimed (request : Request)
    (current_requests : List Request) : ℚ :=
  (if current_requests.any fun ex => request.originStopId = ex.originStopId
    then -(1/5) else 0)
  + (if current_requests.any fun ex => request.destStopId = ex.destStopId
    then -(1/5) else 0)
  + (if current_requests.any fun ex => request.originStopId = ex.destStopId
        ∨ request.destStopId = ex.originStopId
    then -(1/10) else 0)

/-- `_calculate_time_clustering_bonus` (source lines 702–724). -/
def calculate_time_clustering_bonus (request : Request)
    (current_requests : List Request) : ℚ :=
  if current_requests.isEmpty then 0
  else
    match request.requestedPickupAt with
    | none => 0
    | some request_dt =>
      let time_diffs : List ℚ := current_requests.filterMap fun existing =>
        existing.requestedPickupAt.map fun existing_dt =>
          ((|request_dt - existing_dt| : Int) : ℚ) / 60
      if time_diffs.isEmpty then 0
      else
        let avg_time_diff := time_diffs.sum / (time_diffs.length : ℚ);
        -(max 0 ((10 - avg_time_diff) * (2/100)))

/-- `_calculate_route_efficiency_penalty` (source lines 667–700).  The
origin and destination coordinates are passed already resolved: the only
caller, `_calculate_assignment_cost`, reaches this call after checking
that both resolve. -/
def calculate_route_efficiency_penalty (coords : Nat → Option Coord)
    (origin dest : Coord) (current_requests : List Request) : ℚ :=
  if current_requests.isEmpty then 0
  else
    let existing_coords : List Coord := current_requests.flatMap fun req =>
      (coords req.originStopId).toList ++ (coords req.destStopId).toList
    match existing_coords with
    | [] => 0
    | c :: cs =>
      let min_lon := cs.foldl (fun a p => min a p.1) c.1
      let max_lon := cs.foldl (fun a p => max a p.1) c.1
      let min_lat := cs.foldl (fun a p => min a p.2) c.2
      let max_lat := cs.foldl (fun a p => max a p.2) c.2
      (if origin.1 < min_lon ∨ origin.1 > max_lon
          ∨ origin.2 < min_lat ∨ origin.2 > max_lat then (3 : ℚ)/10 else 0)
      + (if dest.1 < min_lon ∨ dest.1 > max_lon
          ∨ dest.2 < min_lat ∨ dest.2 > max_lat then (3 : ℚ)/10 else 0)

/-- A cost value: `some q` is a finite cost, `none` is `float('inf')`. -/
abbrev Cost := Option ℚ

/-- The IEEE comparison `a < b` on `{finite} ∪ {+inf}`: anything finite is
below `+inf`, and `inf < inf` is false. -/
def costLt (a b : Cost) : Bool :=
  match b with
  | none => a.isSome
  | some bq =>
    match a with
    | none => false
    | some aq => decide (aq < bq)

/-- `_calculate_assignment_cost` (source lines 144–178), with the
Euclidean metric abstracted as `dist`. -/
def calculate_assignment_cost (dist : Coord → Coord → ℚ)
    (coords : Nat → Option Coord) (request : Request) (vehicle : Vehicle)
    (current_requests : List Request) : Cost :=
  match coords request.originStopId, coords request.destStopId with
  | some origin_coords, some dest_coords =>
    let vehicle_pos : Coord := (vehicle.longitude, vehicle.latitude)
    some (dist vehicle_pos origin_coords * 2
      + dist origin_coords dest_coords * (1/2)
      + calculate_route_efficiency_penalty coords origin_coords dest_coords current_requests
      + (-(current_requests.length : ℚ) * (1/10))
      + calculate_time_clustering_bonus request current_requests
      + calculate_geo_clustering_bonus request current_requests)
  | _, _ => none

/-! ### Assignment engine (`assign_requests_to_vehicles`, source lines 64–112)

Python's `assignments` dictionary (vehicle id → list of requests) is
modelled as an association list with dictionary semantics: unique keys in
first-insertion order, `find?`-based lookup, in-place append. -/

/-- The assignment dictionary. -/
abbrev Assignments := List (Nat × List Request)

/-- Dictionary lookup (`assignments[vehicle_id]`); total, returning `[]`
for a missing key (the source only looks up keys created by the
comprehension on line 66, so the `[]` default is never observed). -/
def dictLookup : Assignments → Nat → List Request
  | [], _ => []
  | p :: tl, k => if p.1 = k then p.2 else dictLookup tl k

/-- Dictionary key list. -/
def dictKeys (d : Assignments) : List Nat := d.map Prod.fst

/-- Dictionary value list. -/
def dictVals (d : Assignments) : List (List Request) := d.map Prod.snd

/-- One step of the dict comprehension
`{vehicle['vehicleId']: [] for vehicle in vehicles}`: inserting an
already-present key leaves the dictionary unchanged (the value is `[]`
either way). -/
def dictInsertEmpty (d : Assignments) (k : Nat) : Assignments :=
  if d.any fun p => p.1 = k then d else d ++ [(k, [])]

/-- `{vehicle['vehicleId']: [] for vehicle in vehicles}` (source line 66). -/
def initAssignments (vehicles : List Vehicle) : Assignments :=
  vehicles.foldl (fun d v => dictInsertEmpty d v.vehicleId) []

/-- `assignments[key].append(request)` (sources lines 106 and 110). -/
def dictAppend (d : Assignments) (k : Nat) (r : Request) : Assignments :=
  d.map fun p => if p.1 = k then (p.1, p.2 ++ [r]) else p

/-- The pickup-time sort key of the assignment engine (source lines
69–71): a missing instant sorts as `datetime.fromtimestamp(0)`. -/
def get_pickup_datetime (req : Request) : Int :=
  req.requestedPickupAt.getD 0

/-- `sorted(requests, key=get_pickup_datetime)` (source line 73). -/
def sortRequestsByPickup (requests : List Request) : List Request :=
  requests.insertionSort fun a b => get_pickup_datetime a ≤ get_pickup_datetime b

/-- The inner vehicle loop of `assign_requests_to_vehicles` (source lines
83–103): fold over the fleet keeping `(best_vehicle, min_cost)`, starting
from `(None, float('inf'))`, skipping vehicles that fail the capacity,
waiting-time or travel-duration checks, and updating on a strictly
smaller cost. -/
def chooseBest (dist : Coord → Coord → ℚ) (coords : Nat → Option Coord)
    (max_wait_minutes max_travel_minutes : Int) (vehicles : List Vehicle)
    (asg : Assignments) (request : Request) : Option Vehicle × Cost :=
  vehicles.foldl
    (fun acc vehicle =>
      let current_requests := dictLookup asg vehicle.vehicleId
      if current_requests.length ≥ vehicle.cap then acc
      else if violates_waiting_time request current_requests max_wait_minutes then acc
      else if violates_travel_duration request current_requests max_travel_minutes then acc
      else
        let cost := calculate_assignment_cost dist coords request vehicle current_requests
        if costLt cost acc.2 then (some vehicle, cost) else acc)
    (none, none)

/-- `min(vehicles, key=lambda v: len(assignments[v['vehicleId']]))`
(source line 109).  Python's `min` returns the first minimal element and
raises on an empty fleet; the empty case is `none` here and all theorems
about the engine assume a non-empty fleet. -/
def leastLoaded (vehicles : List Vehicle) (asg : Assignments) : Option Vehicle :=
  match vehicles with
  | [] => none
  | v :: vs =>
    some (vs.foldl
      (fun best u =>
        if (dictLookup asg u.vehicleId).length < (dictLookup asg best.vehicleId).length
        then u else best)
      v)

/-- The body of the request loop (source lines 75–110), threading the
assignment dictionary together with a ghost log of the force-assignments
taken on line 110 (pairs of chosen vehicle id and request).  The log lets
theorems talk about "force-assigned" decisions; the dictionary component
is exactly the source's state. -/
def assignStep (dist : Coord → Coord → ℚ) (coords : Nat → Option Coord)
    (max_wait_minutes max_travel_minutes : Int) (vehicles : List Vehicle)
    (st : Assignments × List (Nat × Request)) (request : Request) :
    Assignments × List (Nat × Request) :=
  match coords request.originStopId with
  | none => st
  | some _ =>
    match (chooseBest dist coords max_wait_minutes max_travel_minutes vehicles st.1 request).1 with
    | some best_vehicle => (dictAppend st.1 best_vehicle.vehicleId request, st.2)
    | none =>
      match leastLoaded vehicles st.1 with
      | some least_loaded =>
        (dictAppend st.1 least_loaded.vehicleId request,
         st.2 ++ [(least_loaded.vehicleId, request)])
      | none => st

/-- `assign_requests_to_vehicles` (source lines 64–112) with the ghost
force-assignment log. -/
def assignLoop (dist : Coord → Coord → ℚ) (coords : Nat → Option Coord)
    (requests : List Request) (vehicles : List Vehicle)
    (max_wait_minutes max_travel_minutes : Int) :
    Assignments × List (Nat × Request) :=
  (sortRequestsByPickup requests).foldl
    (assignStep dist coords max_wait_minutes max_travel_minutes vehicles)
    (initAssignments vehicles, [])

/-- `assign_requests_to_vehicles` (source lines 64–112): the returned
dictionary. -/
def assign_requests_to_vehicles (dist : Coord → Coord → ℚ)
    (coords : Nat → Option Coord) (requests : List Request)
    (vehicles : List Vehicle) (max_wait_minutes max_travel_minutes : Int) :
    Assignments :=
  (assignLoop dist coords requests vehicles max_wait_minutes max_travel_minutes).1

/-! ### Sequencing engine (`_calculate_route_locally`, source lines
1024–1099; the same ordering logic appears in
`RouteCalculator.optimize_route`, `route_calculator_lambda.py` lines
54–103) -/

/-- Stop event type. -/
inductive StopType where
  | pickup
  | dropoff
  deriving DecidableEq

/-- A Stop Event as built by the sequencing engine. -/
structure StopEvent where
  type : StopType
  requestId : Nat
  stopId : Nat
  coords : Coord
  priority : Nat
  deriving DecidableEq

/-- The sort on line 1030,
`sorted(requests, key=lambda r: r.get('requestedPickupAt', ''))`.
At this point of the pipeline a request either carries a converted
datetime (`some t`) or has no usable instant (`none`); the Python sort
key is then a `datetime` object, respectively the *string* `''`.  CPython
raises `TypeError` on any `datetime`/`str` comparison, and a list mixing
the two kinds always compares such a pair during sorting (every adjacent
pair is compared while building runs), so the sort only returns normally
when the keys are all datetimes (sorted ascending) or all `''` (all equal:
the stable sort returns the list unchanged). -/
def sortAssigned (requests : List Request) : Except Unit (List Request) :=
  if requests.all fun r => r.requestedPickupAt.isSome then
    .ok (requests.insertionSort fun a b =>
      a.requestedPickupAt.getD 0 ≤ b.requestedPickupAt.getD 0)
  else if requests.all fun r => r.requestedPickupAt.isNone then
    .ok requests
  else .error ()

/-- The pickup Stop Events (source lines 1036–1047): one per request with
a resolvable origin, priority = the request's index in the sorted list. -/
def pickupEvents (coords : Nat → Option Coord) (sorted_requests : List Request) :
    List StopEvent :=
  sorted_requests.enum.filterMap fun p =>
    (coords p.2.originStopId).map fun c =>
      ⟨.pickup, p.2.requestId, p.2.originStopId, c, p.1⟩

/-- The `pickup_order` dictionary (source lines 1034 and 1047): request id
→ index of the last sorted request with that id whose origin resolved. -/
def pickup_order (coords : Nat → Option Coord) (sorted_requests : List Request) :
    Nat → Option Nat :=
  sorted_requests.enum.foldl
    (fun m p =>
      if (coords p.2.originStopId).isSome
      then Function.update m p.2.requestId (some p.1) else m)
    fun _ => none

/-- The dropoff Stop Events (source lines 1050–1059): one per request with
a resolvable destination, priority = `pickup_order.get(requestId, 999) + 100`. -/
def dropoffEvents (coords : Nat → Option Coord) (sorted_requests : List Request) :
    List StopEvent :=
  sorted_requests.filterMap fun r =>
    (coords r.destStopId).map fun c =>
      ⟨.dropoff, r.requestId, r.destStopId, c,
        (pickup_order coords sorted_requests r.requestId).getD 999 + 100⟩

/-- `all_stops.sort(key=lambda x: x['priority'])` applied to the emitted
pickups followed by the emitted dropoffs (source lines 1033–1062). -/
def all_stops (coords : Nat → Option Coord) (sorted_requests : List Request) :
    List StopEvent :=
  (pickupEvents coords sorted_requests ++ dropoffEvents coords sorted_requests).insertionSort
    fun a b => a.priority ≤ b.priority

/-- The waypoint list before the provider cap (source line 1063). -/
def seq_waypoints (coords : Nat → Option Coord) (sorted_requests : List Request) :
    List Coord :=
  (all_stops coords sorted_requests).map StopEvent.coords

/-- What the route-geometry provider returns on success
(`location_client.calculate_route`): leg geometry and the distance /
duration summary. -/
structure ProviderResponse where
  legs : List (List Coord)
  distance : ℚ
  duration : ℚ
  deriving DecidableEq

/-- The external route-geometry provider: `none` models the call raising
(timeout, unreachable geometry, missing provider, …).  It receives the
(capped) waypoint list; the source splits it into departure / destination
/ via-points, which is a bijective repackaging. -/
abbrev Provider := List Coord → Option ProviderResponse

/-- The Route Result dictionary returned by the sequencing engine. -/
structure RouteResult where
  route : List (List Coord)
  distance : ℚ
  duration : ℚ
  waypoints : List Coord
  sequence : List StopEvent
  deriving DecidableEq

/-- Source lines 1032–1099 after the sort: build the Stop Events, derive
waypoints, return an empty route below two waypoints, cap both lists at
23 entries, call the provider, and degrade to distance = duration = 0
when it fails. -/
def routeFromSorted (coords : Nat → Option Coord) (provider : Provider)
    (sorted_requests : List Request) : RouteResult :=
  let stops := all_stops coords sorted_requests
  let waypoints := stops.map StopEvent.coords
  if waypoints.length < 2 then ⟨[], 0, 0, waypoints, stops⟩
  else
    let waypoints2 := if waypoints.length > 23 then waypoints.take 23 else waypoints
    let stops2 := if waypoints.length > 23 then stops.take 23 else stops
    match provider waypoints2 with
    | some response => ⟨response.legs, response.distance, response.duration, waypoints2, stops2⟩
    | none => ⟨[], 0, 0, waypoints2, stops2⟩

/-- `_calculate_route_locally` (source lines 1024–1099).  `.error ()`
models the `TypeError` escaping from the sort on line 1030; every other
path returns a Route Result. -/
def calculate_route_locally (coords : Nat → Option Coord) (provider : Provider)
    (requests : List Request) : Except Unit RouteResult :=
  if requests.isEmpty then .ok ⟨[], 0, 0, [], []⟩
  else (sortAssigned requests).map (routeFromSorted coords provider)

/-! ## Theorems -/

/-- C4: the waiting-time check fires exactly when the candidate has a known
pickup instant and some already-assigned request with a known instant is
strictly more than `max_wait_minutes` minutes away from it (it is waived
for a candidate without an instant); the travel-duration check fires
exactly when the load is non-empty and `(assigned_count + 1) * 2 * 3`
exceeds `max_travel_minutes` (a zero-load vehicle is always
travel-feasible). -/
theorem C4_feasibility_checks (request : Request) (current_requests : List Request)
    (max_wait_minutes max_travel_minutes : Int) :
    (violates_waiting_time request current_requests max_wait_minutes = true ↔
      ∃ t, request.requestedPickupAt = some t ∧
        ∃ existing ∈ current_requests, ∃ t2, existing.requestedPickupAt = some t2 ∧
          |t - t2| > max_wait_minutes * 60)
    ∧ (violates_travel_duration request current_requests max_travel_minutes = true ↔
      current_requests ≠ [] ∧
        ((current_requests.length : Int) + 1) * 2 * 3 > max_travel_minutes) := by
  constructor
  · unfold violates_waiting_time
    cases hreq : request.requestedPickupAt with
    | none => simp
    | some t =>
      simp only [Option.some.injEq, List.any_eq_true]
      constructor
      · rintro ⟨existing, hmem, hp⟩
        cases hex : existing.requestedPickupAt with
        | none => rw [hex] at hp; exact absurd hp (by simp)
        | some t2 =>
          rw [hex] at hp
          exact ⟨t, rfl, existing, hmem, t2, hex, by simpa using hp⟩
      · rintro ⟨t', ht', existing, hmem, t2, hex, habs⟩
        subst ht'
        exact ⟨existing, hmem, by rw [hex]; simpa using habs⟩
  · unfold violates_travel_duration
    cases hcur : current_requests.isEmpty with
    | true => simp [List.isEmpty_iff.mp hcur]
    | false =>
      have hne : current_requests ≠ [] := by
        intro h; rw [h] at hcur; simp at hcur
      simp only [Bool.false_eq_true, if_false, decide_eq_true_eq]
      constructor
      · intro h; exact ⟨hne, by linarith⟩
      · rintro ⟨-, h⟩; linarith

/-- C9: the time filter of `get_requests` keeps, for two bounds, exactly
the requests whose pickup instant lies in the inclusive range; for one
bound it is open-ended on the other side; requests without an instant are
excluded from every range-filtered result and kept when no filter is
given. -/
theorem C9_time_filter (requests : List Request) (s e : Int) (r : Request) :
    (r ∈ get_requests requests (some s) (some e) ↔
      r ∈ requests ∧ ∃ t, r.requestedPickupAt = some t ∧ s ≤ t ∧ t ≤ e)
    ∧ (r ∈ get_requests requests (some s) none ↔
      r ∈ requests ∧ ∃ t, r.requestedPickupAt = some t ∧ s ≤ t)
    ∧ (r ∈ get_requests requests none (some e) ↔
      r ∈ requests ∧ ∃ t, r.requestedPickupAt = some t ∧ t ≤ e)
    ∧ get_requests requests none none = requests := by
  refine ⟨?_, ?_, ?_, ?_⟩ <;> unfold get_requests
  · rw [if_pos (by simp), List.mem_filter]
    cases ht : r.requestedPickupAt with
    | none => simp [ht]
    | some t => simp [ht, ge_iff_le]
  · rw [if_pos (by simp), List.mem_filter]
    cases ht : r.requestedPickupAt with
    | none => simp [ht]
    | some t => simp [ht, ge_iff_le]
  · rw [if_pos (by simp), List.mem_filter]
    cases ht : r.requestedPickupAt with
    | none => simp [ht]
    | some t => simp [ht]
  · simp

/-- C5 counterexample: a candidate with origin stop 10 against two
assigned requests that both start at stop 10.  The source loop subtracts
`0.2` once per matching assigned request, giving `-0.4`, while the claim
("each condition contributes its flat amount at most once") predicts
`-0.2`. -/
theorem C5_geo_bonus_counterexample :
    calculate_geo_clustering_bonus ⟨1, 10, 11, none⟩
        [⟨2, 10, 12, none⟩, ⟨3, 10, 13, none⟩] = -(2/5)
    ∧ geo_clustering_bonus_claimed ⟨1, 10, 11, none⟩
        [⟨2, 10, 12, none⟩, ⟨3, 10, 13, none⟩] = -(1/5)
    ∧ calculate_geo_clustering_bonus ⟨1, 10, 11, none⟩
        [⟨2, 10, 12, none⟩, ⟨3, 10, 13, none⟩]
      ≠ geo_clustering_bonus_claimed ⟨1, 10, 11, none⟩
        [⟨2, 10, 12, none⟩, ⟨3, 10, 13, none⟩] := by
  refine ⟨?_, ?_, ?_⟩ <;>
    norm_num [calculate_geo_clustering_bonus, geo_clustering_bonus_claimed,
      List.foldl, List.any]

lemma geo_foldl_eq (request : Request) (l : List Request) : ∀ acc : ℚ,
    l.foldl
      (fun shared_stops_bonus existing =>
        let b1 := if request.originStopId = existing.originStopId
          then shared_stops_bonus - 1/5 else shared_stops_bonus
        let b2 := if request.destStopId = existing.destStopId
          then b1 - 1/5 else b1
        if request.originStopId = existing.destStopId
            ∨ request.destStopId = existing.originStopId
          then b2 - 1/10 else b2)
      acc
    = acc + (l.map (geoContrib request)).sum := by
  induction l with
  | nil => intro acc; simp
  | cons existing tl ih =>
    intro acc
    rw [List.foldl_cons, ih, List.map_cons, List.sum_cons]
    simp only [geoContrib]
    split_ifs <;> ring

/-- C5 amended: the stop-sharing bonus accumulates per assigned request —
it equals the sum, over the currently-assigned requests, of `-0.2` for a
shared origin, `-0.2` for a shared destination and `-0.1` for an
origin/destination crossing, so a condition matched by several assigned
requests contributes once per match, not at most once. -/
theorem C5_geo_bonus_amended (request : Request) (current_requests : List Request) :
    calculate_geo_clustering_bonus request current_requests
      = (current_requests.map (geoContrib request)).sum := by
  rw [calculate_geo_clustering_bonus]
  split
  · next h => rw [List.isEmpty_iff.mp h]; simp
  · rw [geo_foldl_eq]; ring

/-- C6: evaluating the sequencing sort at a two-request list with one
known and one missing pickup instant.  The source's sort key
`r.get('requestedPickupAt', '')` is a `datetime` for the first request
and the string `''` for the second, and CPython raises
`TypeError: '<' not supported between instances of 'datetime.datetime'
and 'str'`, modelled as `.error ()`. -/
theorem C6_mixed_sort_raises :
    sortAssigned [⟨1, 0, 1, some 3600⟩, ⟨2, 2, 3, none⟩] = .error ()
    ∧ calculate_route_locally (fun s => some ((s : ℚ), (s : ℚ))) (fun _ => none)
        [⟨1, 0, 1, some 3600⟩, ⟨2, 2, 3, none⟩] = .error () := by
  exact ⟨rfl, rfl⟩

/-! ### Dictionary lemmas -/

lemma dictKeys_cons (p : Nat × List Request) (tl : Assignments) :
    dictKeys (p :: tl) = p.1 :: dictKeys tl := rfl

lemma dictAppend_of_not_mem (k : Nat) (r : Request) :
    ∀ d : Assignments, k ∉ dictKeys d → dictAppend d k r = d := by
  intro d
  induction d with
  | nil => intro _; rfl
  | cons p tl ih =>
    intro h
    rw [dictKeys_cons] at h
    have h1 : p.1 ≠ k := fun hh => h (hh ▸ List.mem_cons_self _ _)
    have h2 : k ∉ dictKeys tl := fun hh => h (List.mem_cons_of_mem _ hh)
    show (if p.1 = k then (p.1, p.2 ++ [r]) else p) :: dictAppend tl k r = p :: tl
    rw [if_neg h1, ih h2]

lemma dictKeys_dictAppend (d : Assignments) (k : Nat) (r : Request) :
    dictKeys (dictAppend d k r) = dictKeys d := by
  unfold dictKeys dictAppend
  rw [List.map_map]
  exact List.map_congr_left fun p _ => by by_cases h : p.1 = k <;> simp [h]

lemma dictLookup_dictAppend_self (k : Nat) (r : Request) :
    ∀ d : Assignments, k ∈ dictKeys d →
      dictLookup (dictAppend d k r) k = dictLookup d k ++ [r] := by
  intro d
  induction d with
  | nil => intro h; simp [dictKeys] at h
  | cons p tl ih =>
    intro h
    by_cases hpk : p.1 = k
    · simp [dictAppend, dictLookup, hpk]
    · have h2 : k ∈ dictKeys tl := by
        rw [dictKeys_cons] at h
        rcases List.mem_cons.mp h with h | h
        · exact absurd h.symm hpk
        · exact h
      simp only [dictAppend, List.map_cons, if_neg hpk, dictLookup]
      exact ih h2

lemma dictLookup_dictAppend_ne (k k' : Nat) (r : Request) (hne : k' ≠ k) :
    ∀ d : Assignments, dictLookup (dictAppend d k r) k' = dictLookup d k' := by
  intro d
  induction d with
  | nil => rfl
  | cons p tl ih =>
    by_cases hpk : p.1 = k
    · have hp' : p.1 ≠ k' := fun hh => hne (hh.symm.trans hpk)
      simp only [dictAppend, List.map_cons, if_pos hpk, dictLookup]
      rw [if_neg hp', if_neg hp']
      exact ih
    · simp only [dictAppend, List.map_cons, if_neg hpk, dictLookup]
      by_cases hp' : p.1 = k'
      · rw [if_pos hp', if_pos hp']
      · rw [if_neg hp', if_neg hp']
        exact ih

lemma flatten_dictVals_dictAppend (k : Nat) (r : Request) :
    ∀ d : Assignments, k ∈ dictKeys d → (dictKeys d).Nodup →
      ((dictVals (dictAppend d k r)).flatten).Perm (r :: (dictVals d).flatten) := by
  intro d
  induction d with
  | nil => intro h _; simp [dictKeys] at h
  | cons p tl ih =>
    intro h hnd
    rw [dictKeys_cons] at h hnd
    by_cases hpk : p.1 = k
    · have hknotl : k ∉ dictKeys tl := hpk ▸ (List.nodup_cons.mp hnd).1
      have happ : dictAppend (p :: tl) k r = (p.1, p.2 ++ [r]) :: tl := by
        show (if p.1 = k then (p.1, p.2 ++ [r]) else p) :: dictAppend tl k r = _
        rw [if_pos hpk, dictAppend_of_not_mem k r tl hknotl]
      rw [happ]
      show ((p.2 ++ [r]) ++ (dictVals tl).flatten).Perm (r :: (p.2 ++ (dictVals tl).flatten))
      rw [List.append_assoc]
      exact List.perm_middle
    · have hk2 : k ∈ dictKeys tl := by
        rcases List.mem_cons.mp h with h | h
        · exact absurd h.symm hpk
        · exact h
      have happ : dictAppend (p :: tl) k r = p :: dictAppend tl k r := by
        show (if p.1 = k then (p.1, p.2 ++ [r]) else p) :: dictAppend tl k r = _
        rw [if_neg hpk]
      rw [happ]
      show (p.2 ++ (dictVals (dictAppend tl k r)).flatten).Perm
        (r :: (p.2 ++ (dictVals tl).flatten))
      have hperm := ih hk2 (List.nodup_cons.mp hnd).2
      exact ((hperm.append_left p.2).trans List.perm_middle)

lemma mem_dictKeys_foldl_insert (l : List Vehicle) :
    ∀ (d : Assignments) (k : Nat),
      k ∈ dictKeys (l.foldl (fun d v => dictInsertEmpty d v.vehicleId) d) ↔
        k ∈ dictKeys d ∨ ∃ v ∈ l, v.vehicleId = k := by
  induction l with
  | nil => intro d k; simp
  | cons v tl ih =>
    intro d k
    rw [List.foldl_cons, ih]
    have hins : k ∈ dictKeys (dictInsertEmpty d v.vehicleId) ↔
        k ∈ dictKeys d ∨ v.vehicleId = k := by
      unfold dictInsertEmpty
      split
      · next hany =>
        constructor
        · exact Or.inl
        · rintro (h | h)
          · exact h
          · obtain ⟨p, hp, hpk⟩ := List.any_eq_true.mp hany
            subst h
            exact List.mem_map.mpr ⟨p, hp, by simpa using hpk⟩
      · rw [show dictKeys (d ++ [(v.vehicleId, [])]) = dictKeys d ++ [v.vehicleId] from by
            simp [dictKeys]]
        rw [List.mem_append, List.mem_singleton]
        constructor
        · rintro (h | h)
          · exact Or.inl h
          · exact Or.inr h.symm
        · rintro (h | h)
          · exact Or.inl h
          · exact Or.inr h.symm
    rw [hins]
    constructor
    · rintro ((h | h) | ⟨u, hu, huk⟩)
      · exact Or.inl h
      · exact Or.inr ⟨v, List.mem_cons_self v tl, h⟩
      · exact Or.inr ⟨u, List.mem_cons_of_mem v hu, huk⟩
    · rintro (h | ⟨u, hu, huk⟩)
      · exact Or.inl (Or.inl h)
      · rcases List.mem_cons.mp hu with rfl | hu
        · exact Or.inl (Or.inr huk)
        · exact Or.inr ⟨u, hu, huk⟩

lemma nodup_dictKeys_foldl_insert (l : List Vehicle) :
    ∀ d : Assignments, (dictKeys d).Nodup →
      (dictKeys (l.foldl (fun d v => dictInsertEmpty d v.vehicleId) d)).Nodup := by
  induction l with
  | nil => intro d h; exact h
  | cons v tl ih =>
    intro d h
    rw [List.foldl_cons]
    apply ih
    unfold dictInsertEmpty
    split
    · exact h
    · next hany =>
      rw [show dictKeys (d ++ [(v.vehicleId, [])]) = dictKeys d ++ [v.vehicleId] from by
          simp [dictKeys]]
      rw [List.nodup_append]
      refine ⟨h, List.nodup_singleton _, ?_⟩
      intro a ha hb
      rw [List.mem_singleton] at hb
      subst hb
      obtain ⟨p, hp, hpk⟩ := List.mem_map.mp ha
      exact hany (List.any_eq_true.mpr ⟨p, hp, by simpa using hpk⟩)

lemma mem_dictKeys_initAssignments (vehicles : List Vehicle) (k : Nat) :
    k ∈ dictKeys (initAssignments vehicles) ↔ ∃ v ∈ vehicles, v.vehicleId = k := by
  unfold initAssignments
  rw [mem_dictKeys_foldl_insert]
  simp [dictKeys]

lemma nodup_dictKeys_initAssignments (vehicles : List Vehicle) :
    (dictKeys (initAssignments vehicles)).Nodup :=
  nodup_dictKeys_foldl_insert vehicles [] (by simp [dictKeys])

lemma flatten_dictVals_initAssignments (vehicles : List Vehicle) :
    (dictVals (initAssignments vehicles)).flatten = [] := by
  rw [List.flatten_eq_nil_iff]
  suffices haux : ∀ (l : List Vehicle) (d : Assignments),
      (∀ p ∈ d, p.2 = ([] : List Request)) →
      ∀ p ∈ l.foldl (fun d v => dictInsertEmpty d v.vehicleId) d,
        p.2 = ([] : List Request) by
    intro lv hlv
    obtain ⟨p, hp, rfl⟩ := List.mem_map.mp hlv
    exact haux vehicles [] (by simp) p hp
  intro l
  induction l with
  | nil => intro d h; exact h
  | cons v tl ih =>
    intro d h
    rw [List.foldl_cons]
    apply ih
    unfold dictInsertEmpty
    split
    · exact h
    · intro p hp
      rcases List.mem_append.mp hp with h1 | h1
      · exact h p h1
      · rw [List.mem_singleton.mp h1]

/-! ### Assignment-engine lemmas -/

lemma chooseBest_picks_aux (dist : Coord → Coord → ℚ) (coords : Nat → Option Coord)
    (max_wait_minutes max_travel_minutes : Int) (asg : Assignments) (request : Request) :
    ∀ (l : List Vehicle) (acc : Option Vehicle × Cost) (v : Vehicle),
      (l.foldl
        (fun acc vehicle =>
          let current_requests := dictLookup asg vehicle.vehicleId
          if current_requests.length ≥ vehicle.cap then acc
          else if violates_waiting_time request current_requests max_wait_minutes then acc
          else if violates_travel_duration request current_requests max_travel_minutes then acc
          else
            let cost := calculate_assignment_cost dist coords request vehicle current_requests
            if costLt cost acc.2 then (some vehicle, cost) else acc)
        acc).1 = some v →
      acc.1 = some v ∨
        (v ∈ l ∧ (dictLookup asg v.vehicleId).length < v.cap
          ∧ violates_waiting_time request (dictLookup asg v.vehicleId) max_wait_minutes = false
          ∧ violates_travel_duration request (dictLookup asg v.vehicleId) max_travel_minutes = false) := by
  intro l
  induction l with
  | nil => intro acc v h; exact Or.inl h
  | cons u tl ih =>
    intro acc v h
    rw [List.foldl_cons] at h
    rcases ih _ v h with hstep | htl
    · dsimp only at hstep
      by_cases h1 : (dictLookup asg u.vehicleId).length ≥ u.cap
      · rw [if_pos h1] at hstep; exact Or.inl hstep
      · rw [if_neg h1] at hstep
        by_cases h2 : violates_waiting_time request (dictLookup asg u.vehicleId) max_wait_minutes = true
        · rw [if_pos h2] at hstep; exact Or.inl hstep
        · rw [if_neg h2] at hstep
          by_cases h3 : violates_travel_duration request (dictLookup asg u.vehicleId) max_travel_minutes = true
          · rw [if_pos h3] at hstep; exact Or.inl hstep
          · rw [if_neg h3] at hstep
            by_cases h4 : costLt (calculate_assignment_cost dist coords request u
                (dictLookup asg u.vehicleId)) acc.2 = true
            · rw [if_pos h4] at hstep
              obtain rfl : u = v := by simpa using hstep
              exact Or.inr ⟨List.mem_cons_self u tl, lt_of_not_ge h1,
                by simpa using h2, by simpa using h3⟩
            · rw [if_neg h4] at hstep; exact Or.inl hstep
    · exact Or.inr ⟨List.mem_cons_of_mem u htl.1, htl.2⟩

lemma chooseBest_picks (dist : Coord → Coord → ℚ) (coords : Nat → Option Coord)
    (max_wait_minutes max_travel_minutes : Int) (vehicles : List Vehicle)
    (asg : Assignments) (request : Request) (v : Vehicle)
    (h : (chooseBest dist coords max_wait_minutes max_travel_minutes vehicles asg request).1
      = some v) :
    v ∈ vehicles ∧ (dictLookup asg v.vehicleId).length < v.cap
      ∧ violates_waiting_time request (dictLookup asg v.vehicleId) max_wait_minutes = false
      ∧ violates_travel_duration request (dictLookup asg v.vehicleId) max_travel_minutes = false := by
  unfold chooseBest at h
  rcases chooseBest_picks_aux dist coords max_wait_minutes max_travel_minutes asg request
      vehicles (none, none) v h with h0 | h1
  · simp at h0
  · exact h1

lemma foldl_min_mem (asg : Assignments) :
    ∀ (l : List Vehicle) (b : Vehicle),
      l.foldl
        (fun best u =>
          if (dictLookup asg u.vehicleId).length < (dictLookup asg best.vehicleId).length
          then u else best) b ∈ b :: l := by
  intro l
  induction l with
  | nil => intro b; exact List.mem_singleton.mpr rfl
  | cons u tl ih =>
    intro b
    rw [List.foldl_cons]
    rcases List.mem_cons.mp
        (ih (if (dictLookup asg u.vehicleId).length < (dictLookup asg b.vehicleId).length
          then u else b)) with h | h
    · rw [h]
      split
      · exact List.mem_cons_of_mem _ (List.mem_cons_self u tl)
      · exact List.mem_cons_self b _
    · exact List.mem_cons_of_mem _ (List.mem_cons_of_mem u h)

lemma leastLoaded_mem (vehicles : List Vehicle) (asg : Assignments) (v : Vehicle)
    (h : leastLoaded vehicles asg = some v) : v ∈ vehicles := by
  cases vehicles with
  | nil => simp [leastLoaded] at h
  | cons v0 vs =>
    unfold leastLoaded at h
    injection h with h
    rw [← h]
    exact foldl_min_mem asg vs v0

lemma leastLoaded_ne_none (vehicles : List Vehicle) (asg : Assignments)
    (h : vehicles ≠ []) : ∃ v, leastLoaded vehicles asg = some v := by
  cases vehicles with
  | nil => exact absurd rfl h
  | cons v0 vs => exact ⟨_, rfl⟩

lemma assignStep_unresolvable (dist : Coord → Coord → ℚ) (coords : Nat → Option Coord)
    (max_wait_minutes max_travel_minutes : Int) (vehicles : List Vehicle)
    (st : Assignments × List (Nat × Request)) (request : Request)
    (hres : coords request.originStopId = none) :
    assignStep dist coords max_wait_minutes max_travel_minutes vehicles st request = st := by
  unfold assignStep
  rw [hres]

lemma assignStep_resolvable (dist : Coord → Coord → ℚ) (coords : Nat → Option Coord)
    (max_wait_minutes max_travel_minutes : Int) (vehicles : List Vehicle)
    (st : Assignments × List (Nat × Request)) (request : Request)
    (hres : (coords request.originStopId).isSome = true) (hne : vehicles ≠ []) :
    ∃ u g, u ∈ vehicles
      ∧ assignStep dist coords max_wait_minutes max_travel_minutes vehicles st request
        = (dictAppend st.1 u.vehicleId request, g)
      ∧ (g = st.2 ∨ g = st.2 ++ [(u.vehicleId, request)]) := by
  obtain ⟨c, hc⟩ := Option.isSome_iff_exists.mp hres
  unfold assignStep
  rw [hc]
  cases hcb : (chooseBest dist coords max_wait_minutes max_travel_minutes vehicles st.1 request).1 with
  | some u =>
    exact ⟨u, st.2,
      (chooseBest_picks dist coords max_wait_minutes max_travel_minutes vehicles st.1
        request u hcb).1, rfl, Or.inl rfl⟩
  | none =>
    obtain ⟨w, hw⟩ := leastLoaded_ne_none vehicles st.1 hne
    rw [hw]
    exact ⟨w, _, leastLoaded_mem _ _ _ hw, rfl, Or.inr rfl⟩

lemma dictKeys_assignStep (dist : Coord → Coord → ℚ) (coords : Nat → Option Coord)
    (max_wait_minutes max_travel_minutes : Int) (vehicles : List Vehicle)
    (st : Assignments × List (Nat × Request)) (request : Request) :
    dictKeys (assignStep dist coords max_wait_minutes max_travel_minutes vehicles st request).1
      = dictKeys st.1 := by
  unfold assignStep
  cases hc : coords request.originStopId with
  | none => rfl
  | some c =>
    cases hcb : (chooseBest dist coords max_wait_minutes max_travel_minutes vehicles st.1 request).1 with
    | some u => exact dictKeys_dictAppend _ _ _
    | none =>
      cases hw : leastLoaded vehicles st.1 with
      | some w => exact dictKeys_dictAppend _ _ _
      | none => rfl

lemma dictKeys_assignFold (dist : Coord → Coord → ℚ) (coords : Nat → Option Coord)
    (max_wait_minutes max_travel_minutes : Int) (vehicles : List Vehicle) :
    ∀ (l : List Request) (st : Assignments × List (Nat × Request)),
      dictKeys ((l.foldl (assignStep dist coords max_wait_minutes max_travel_minutes vehicles) st).1)
        = dictKeys st.1 := by
  intro l
  induction l with
  | nil => intro st; rfl
  | cons r tl ih =>
    intro st
    rw [List.foldl_cons, ih, dictKeys_assignStep]

lemma assignStep_log_extend (dist : Coord → Coord → ℚ) (coords : Nat → Option Coord)
    (max_wait_minutes max_travel_minutes : Int) (vehicles : List Vehicle)
    (st : Assignments × List (Nat × Request)) (request : Request) :
    ∃ t0, (assignStep dist coords max_wait_minutes max_travel_minutes vehicles st request).2
      = st.2 ++ t0 := by
  unfold assignStep
  cases hc : coords request.originStopId with
  | none => exact ⟨[], (List.append_nil _).symm⟩
  | some c =>
    cases hcb : (chooseBest dist coords max_wait_minutes max_travel_minutes vehicles st.1 request).1 with
    | some u => exact ⟨[], (List.append_nil _).symm⟩
    | none =>
      cases hw : leastLoaded vehicles st.1 with
      | some w => exact ⟨[(w.vehicleId, request)], rfl⟩
      | none => exact ⟨[], (List.append_nil _).symm⟩

lemma assignFold_log_extend (dist : Coord → Coord → ℚ) (coords : Nat → Option Coord)
    (max_wait_minutes max_travel_minutes : Int) (vehicles : List Vehicle) :
    ∀ (l : List Request) (st : Assignments × List (Nat × Request)),
      ∃ tail,
        ((l.foldl (assignStep dist coords max_wait_minutes max_travel_minutes vehicles) st).2)
          = st.2 ++ tail := by
  intro l
  induction l with
  | nil => intro st; exact ⟨[], (List.append_nil _).symm⟩
  | cons r tl ih =>
    intro st
    rw [List.foldl_cons]
    obtain ⟨tail, htail⟩ :=
      ih (assignStep dist coords max_wait_minutes max_travel_minutes vehicles st r)
    obtain ⟨t0, h0⟩ := assignStep_log_extend dist coords max_wait_minutes max_travel_minutes
      vehicles st r
    exact ⟨t0 ++ tail, by rw [htail, h0, List.append_assoc]⟩

lemma assignFold_coverage (dist : Coord → Coord → ℚ) (coords : Nat → Option Coord)
    (max_wait_minutes max_travel_minutes : Int) (vehicles : List Vehicle)
    (hne : vehicles ≠ []) :
    ∀ (l : List Request) (st : Assignments × List (Nat × Request)),
      (∀ u ∈ vehicles, u.vehicleId ∈ dictKeys st.1) →
      (dictKeys st.1).Nodup →
      ((dictVals ((l.foldl (assignStep dist coords max_wait_minutes max_travel_minutes vehicles) st).1)).flatten).Perm
        ((l.filter fun r => (coords r.originStopId).isSome) ++ (dictVals st.1).flatten) := by
  intro l
  induction l with
  | nil => intro st _ _; simp
  | cons r tl ih =>
    intro st hkeys hnd
    rw [List.foldl_cons, List.filter_cons]
    cases hres : (coords r.originStopId).isSome with
    | false =>
      have hcn : coords r.originStopId = none := by
        cases hc : coords r.originStopId with
        | none => rfl
        | some c => rw [hc] at hres; simp at hres
      rw [assignStep_unresolvable dist coords max_wait_minutes max_travel_minutes
        vehicles st r hcn]
      simp only [Bool.false_eq_true, if_false]
      exact ih st hkeys hnd
    | true =>
      obtain ⟨u, g, humem, hstep, -⟩ := assignStep_resolvable dist coords
        max_wait_minutes max_travel_minutes vehicles st r hres hne
      rw [hstep]
      simp only [if_true]
      have hkmem : u.vehicleId ∈ dictKeys st.1 := hkeys u humem
      have hkeys2 : ∀ w ∈ vehicles, w.vehicleId ∈ dictKeys (dictAppend st.1 u.vehicleId r, g).1 := by
        intro w hw
        rw [show (dictAppend st.1 u.vehicleId r, g).1 = dictAppend st.1 u.vehicleId r from rfl,
          dictKeys_dictAppend]
        exact hkeys w hw
      have hnd2 : (dictKeys (dictAppend st.1 u.vehicleId r, g).1).Nodup := by
        rw [show (dictAppend st.1 u.vehicleId r, g).1 = dictAppend st.1 u.vehicleId r from rfl,
          dictKeys_dictAppend]
        exact hnd
      have hmain := ih (dictAppend st.1 u.vehicleId r, g) hkeys2 hnd2
      have hvals : ((dictVals (dictAppend st.1 u.vehicleId r)).flatten).Perm
          (r :: (dictVals st.1).flatten) :=
        flatten_dictVals_dictAppend u.vehicleId r st.1 hkmem hnd
      refine hmain.trans ?_
      have h1 : (List.filter (fun r => (coords r.originStopId).isSome) tl
            ++ (dictVals (dictAppend st.1 u.vehicleId r, g).1).flatten).Perm
          (List.filter (fun r => (coords r.originStopId).isSome) tl
            ++ (r :: (dictVals st.1).flatten)) :=
        List.Perm.append_left _ hvals
      refine h1.trans ?_
      rw [List.cons_append]
      exact List.perm_middle

/-- C1: for a non-empty fleet, the returned mapping's key set is exactly
the fleet's vehicle-identifier set (every fleet vehicle is a key, even
with an empty list), and the requests collected across all vehicle lists
are, as a multiset, exactly the input requests whose origin stop resolves
— so each origin-resolvable request lands in exactly one vehicle's list
and each origin-unresolvable request in none. -/
theorem C1_total_coverage (dist : Coord → Coord → ℚ) (coords : Nat → Option Coord)
    (requests : List Request) (vehicles : List Vehicle)
    (max_wait_minutes max_travel_minutes : Int) (hne : vehicles ≠ []) :
    (∀ k, k ∈ dictKeys (assign_requests_to_vehicles dist coords requests vehicles
        max_wait_minutes max_travel_minutes)
      ↔ ∃ v ∈ vehicles, v.vehicleId = k)
    ∧ ((dictVals (assign_requests_to_vehicles dist coords requests vehicles
        max_wait_minutes max_travel_minutes)).flatten).Perm
      (requests.filter fun r => (coords r.originStopId).isSome) := by
  constructor
  · intro k
    unfold assign_requests_to_vehicles assignLoop
    rw [dictKeys_assignFold, mem_dictKeys_initAssignments]
  · unfold assign_requests_to_vehicles assignLoop
    have hcov := assignFold_coverage dist coords max_wait_minutes max_travel_minutes
      vehicles hne (sortRequestsByPickup requests) (initAssignments vehicles, [])
      (fun u hu => (mem_dictKeys_initAssignments vehicles u.vehicleId).mpr ⟨u, hu, rfl⟩)
      (nodup_dictKeys_initAssignments vehicles)
    rw [flatten_dictVals_initAssignments, List.append_nil] at hcov
    refine hcov.trans ?_
    exact (List.perm_insertionSort _ requests).filter _

/-- C1 witness: a concrete two-vehicle fleet with one resolvable-origin
request, one unresolvable-origin request, and one more resolvable
request. -/
theorem C1_total_coverage_witness :
    ([⟨7, none, 0, 0⟩, ⟨8, some 0, 0, 0⟩] : List Vehicle) ≠ []
    ∧ ((∀ k, k ∈ dictKeys (assign_requests_to_vehicles (fun _ _ => 0)
          (fun s => if s ≤ 10 then some ((s : ℚ), (s : ℚ)) else none)
          [⟨1, 0, 1, some 100⟩, ⟨2, 2, 3, none⟩, ⟨3, 99, 1, some 50⟩]
          [⟨7, none, 0, 0⟩, ⟨8, some 0, 0, 0⟩] 15 20)
        ↔ ∃ v ∈ ([⟨7, none, 0, 0⟩, ⟨8, some 0, 0, 0⟩] : List Vehicle), v.vehicleId = k)
      ∧ ((dictVals (assign_requests_to_vehicles (fun _ _ => 0)
          (fun s => if s ≤ 10 then some ((s : ℚ), (s : ℚ)) else none)
          [⟨1, 0, 1, some 100⟩, ⟨2, 2, 3, none⟩, ⟨3, 99, 1, some 50⟩]
          [⟨7, none, 0, 0⟩, ⟨8, some 0, 0, 0⟩] 15 20)).flatten).Perm
        ([⟨1, 0, 1, some 100⟩, ⟨2, 2, 3, none⟩, ⟨3, 99, 1, some 50⟩].filter
          fun r => ((if r.originStopId ≤ 10 then some ((r.originStopId : ℚ), (r.originStopId : ℚ)) else none : Option Coord)).isSome)) :=
  ⟨by simp,
    C1_total_coverage (fun _ _ => 0)
      (fun s => if s ≤ 10 then some ((s : ℚ), (s : ℚ)) else none)
      [⟨1, 0, 1, some 100⟩, ⟨2, 2, 3, none⟩, ⟨3, 99, 1, some 50⟩]
      [⟨7, none, 0, 0⟩, ⟨8, some 0, 0, 0⟩] 15 20 (by simp)⟩

lemma assignStep_shape (dist : Coord → Coord → ℚ) (coords : Nat → Option Coord)
    (max_wait_minutes max_travel_minutes : Int) (vehicles : List Vehicle)
    (st : Assignments × List (Nat × Request)) (request : Request) :
    assignStep dist coords max_wait_minutes max_travel_minutes vehicles st request = st
    ∨ (∃ u, u ∈ vehicles ∧ (dictLookup st.1 u.vehicleId).length < u.cap
        ∧ assignStep dist coords max_wait_minutes max_travel_minutes vehicles st request
          = (dictAppend st.1 u.vehicleId request, st.2))
    ∨ (∃ w : Vehicle, assignStep dist coords max_wait_minutes max_travel_minutes vehicles st request
        = (dictAppend st.1 w.vehicleId request, st.2 ++ [(w.vehicleId, request)])) := by
  unfold assignStep
  cases hc : coords request.originStopId with
  | none => exact Or.inl rfl
  | some c =>
    cases hcb : (chooseBest dist coords max_wait_minutes max_travel_minutes vehicles st.1 request).1 with
    | some u =>
      obtain ⟨humem, hcap, -, -⟩ := chooseBest_picks dist coords max_wait_minutes
        max_travel_minutes vehicles st.1 request u hcb
      exact Or.inr (Or.inl ⟨u, humem, hcap, rfl⟩)
    | none =>
      cases hw : leastLoaded vehicles st.1 with
      | some w => exact Or.inr (Or.inr ⟨w, rfl⟩)
      | none => exact Or.inl rfl

lemma dictLookup_all_nil (k : Nat) :
    ∀ d : Assignments, (∀ p ∈ d, p.2 = ([] : List Request)) → dictLookup d k = [] := by
  intro d
  induction d with
  | nil => intro _; rfl
  | cons p tl ih =>
    intro h
    show (if p.1 = k then p.2 else dictLookup tl k) = []
    by_cases hpk : p.1 = k
    · rw [if_pos hpk]; exact h p (List.mem_cons_self _ _)
    · rw [if_neg hpk]; exact ih fun q hq => h q (List.mem_cons_of_mem _ hq)

lemma initAssignments_vals_nil (vehicles : List Vehicle) :
    ∀ p ∈ initAssignments vehicles, p.2 = ([] : List Request) := by
  unfold initAssignments
  suffices haux : ∀ (l : List Vehicle) (d : Assignments),
      (∀ p ∈ d, p.2 = ([] : List Request)) →
      ∀ p ∈ l.foldl (fun d v => dictInsertEmpty d v.vehicleId) d,
        p.2 = ([] : List Request) from haux vehicles [] (by simp)
  intro l
  induction l with
  | nil => intro d h; exact h
  | cons v tl ih =>
    intro d h
    rw [List.foldl_cons]
    apply ih
    unfold dictInsertEmpty
    split
    · exact h
    · intro p hp
      rcases List.mem_append.mp hp with h1 | h1
      · exact h p h1
      · rw [List.mem_singleton.mp h1]

lemma assignFold_capacity (dist : Coord → Coord → ℚ) (coords : Nat → Option Coord)
    (max_wait_minutes max_travel_minutes : Int) (vehicles : List Vehicle) (v : Vehicle)
    (hnodup : (vehicles.map Vehicle.vehicleId).Nodup) (hv : v ∈ vehicles) :
    ∀ (l : List Request) (st : Assignments × List (Nat × Request)),
      (dictLookup st.1 v.vehicleId).length ≤ v.cap →
      (∀ r : Request, (v.vehicleId, r)
        ∉ (l.foldl (assignStep dist coords max_wait_minutes max_travel_minutes vehicles) st).2) →
      (dictLookup ((l.foldl (assignStep dist coords max_wait_minutes max_travel_minutes vehicles) st).1)
        v.vehicleId).length ≤ v.cap := by
  intro l
  induction l with
  | nil => intro st h _; exact h
  | cons r tl ih =>
    intro st hload hforced
    rw [List.foldl_cons] at hforced ⊢
    refine ih (assignStep dist coords max_wait_minutes max_travel_minutes vehicles st r)
      ?_ hforced
    rcases assignStep_shape dist coords max_wait_minutes max_travel_minutes vehicles st r
      with hst | ⟨u, humem, hcap, hst⟩ | ⟨w, hst⟩
    · rw [hst]; exact hload
    · rw [hst]
      by_cases hid : u.vehicleId = v.vehicleId
      · obtain rfl : u = v := List.inj_on_of_nodup_map hnodup humem hv hid
        by_cases hmem : u.vehicleId ∈ dictKeys st.1
        · show (dictLookup (dictAppend st.1 u.vehicleId r) u.vehicleId).length ≤ u.cap
          rw [dictLookup_dictAppend_self u.vehicleId r st.1 hmem, List.length_append]
          simpa using hcap
        · show (dictLookup (dictAppend st.1 u.vehicleId r) u.vehicleId).length ≤ u.cap
          rw [dictAppend_of_not_mem u.vehicleId r st.1 hmem]
          exact hload
      · show (dictLookup (dictAppend st.1 u.vehicleId r) v.vehicleId).length ≤ v.cap
        rw [dictLookup_dictAppend_ne u.vehicleId v.vehicleId r (fun hh => hid hh.symm) st.1]
        exact hload
    · by_cases hid : w.vehicleId = v.vehicleId
      · exfalso
        obtain ⟨tail, htail⟩ := assignFold_log_extend dist coords max_wait_minutes
          max_travel_minutes vehicles tl
          (assignStep dist coords max_wait_minutes max_travel_minutes vehicles st r)
        apply hforced r
        rw [htail, hst]
        show (v.vehicleId, r) ∈ (st.2 ++ [(w.vehicleId, r)]) ++ tail
        rw [hid]
        exact List.mem_append.mpr (Or.inl (List.mem_append.mpr (Or.inr (List.mem_singleton.mpr rfl))))
      · rw [hst]
        show (dictLookup (dictAppend st.1 w.vehicleId r) v.vehicleId).length ≤ v.cap
        rw [dictLookup_dictAppend_ne w.vehicleId v.vehicleId r (fun hh => hid hh.symm) st.1]
        exact hload

/-- C3 counterexample, refuting the claim with its own definition of
"force-assigned" ("no feasible vehicle existed at decision time").  Fleet
`[L, F]` with `L = vehicle 0` of capacity 0 and `F = vehicle 1` of
capacity 20; one request whose origin (stop 0) resolves but whose
destination (stop 5) does not.  At decision time `F` is feasible — it
passes the capacity, waiting-time and travel-duration checks — but every
vehicle's cost is `float('inf')` (unresolvable destination), so
`best_vehicle` stays `None` and the request is force-assigned to the
least-loaded vehicle `L`.  `L` therefore only received requests that had
a feasible vehicle, yet ends with 1 assigned > 0 = its capacity. -/
theorem C3_capacity_counterexample :
    ((dictLookup (initAssignments [⟨0, some 0, 0, 0⟩, ⟨1, some 20, 0, 0⟩]) 1).length
        < (⟨1, some 20, 0, 0⟩ : Vehicle).cap
      ∧ violates_waiting_time ⟨1, 0, 5, none⟩
          (dictLookup (initAssignments [⟨0, some 0, 0, 0⟩, ⟨1, some 20, 0, 0⟩]) 1) 15 = false
      ∧ violates_travel_duration ⟨1, 0, 5, none⟩
          (dictLookup (initAssignments [⟨0, some 0, 0, 0⟩, ⟨1, some 20, 0, 0⟩]) 1) 20 = false)
    ∧ dictLookup (assign_requests_to_vehicles (fun _ _ => 0)
        (fun s => if s = 0 then some (0, 0) else none)
        [⟨1, 0, 5, none⟩] [⟨0, some 0, 0, 0⟩, ⟨1, some 20, 0, 0⟩] 15 20) 0
      = [⟨1, 0, 5, none⟩]
    ∧ (⟨0, some 0, 0, 0⟩ : Vehicle).cap = 0 := by
  exact ⟨⟨by decide, by decide, by decide⟩, by decide, by decide⟩

/-- C3 amended: "force-assigned to that vehicle" means the request was
placed on it by the fallback branch (`best_vehicle` was `None`, which also
happens when feasible vehicles exist but all carry infinite cost).  For a
fleet with pairwise-distinct vehicle identifiers, any vehicle that never
received a fallback placement ends with at most `capacity` (default 20)
assigned requests. -/
theorem C3_capacity_unless_forced (dist : Coord → Coord → ℚ)
    (coords : Nat → Option Coord) (requests : List Request)
    (vehicles : List Vehicle) (max_wait_minutes max_travel_minutes : Int) (v : Vehicle)
    (hnodup : (vehicles.map Vehicle.vehicleId).Nodup)
    (hv : v ∈ vehicles)
    (hforced : ∀ r : Request, (v.vehicleId, r)
      ∉ (assignLoop dist coords requests vehicles max_wait_minutes max_travel_minutes).2) :
    (dictLookup (assign_requests_to_vehicles dist coords requests vehicles
      max_wait_minutes max_travel_minutes) v.vehicleId).length ≤ v.cap := by
  unfold assignLoop at hforced
  unfold assign_requests_to_vehicles assignLoop
  refine assignFold_capacity dist coords max_wait_minutes max_travel_minutes vehicles v
    hnodup hv (sortRequestsByPickup requests) (initAssignments vehicles, []) ?_ hforced
  rw [dictLookup_all_nil v.vehicleId (initAssignments vehicles)
    (initAssignments_vals_nil vehicles)]
  exact Nat.zero_le _

/-- C3 witness: one vehicle with default capacity, one fully resolvable
request; the request is placed by the best-cost branch, the force log is
empty, and the load 1 stays below the default capacity 20. -/
theorem C3_capacity_unless_forced_witness :
    (([⟨7, none, 0, 0⟩] : List Vehicle).map Vehicle.vehicleId).Nodup
    ∧ (⟨7, none, 0, 0⟩ : Vehicle) ∈ ([⟨7, none, 0, 0⟩] : List Vehicle)
    ∧ (dictLookup (assign_requests_to_vehicles (fun _ _ => 0) (fun _ => some (1, 1))
        [⟨1, 2, 3, none⟩] [⟨7, none, 0, 0⟩] 15 20) 7).length
      ≤ (⟨7, none, 0, 0⟩ : Vehicle).cap :=
  ⟨by decide, by decide,
    C3_capacity_unless_forced (fun _ _ => 0) (fun _ => some (1, 1))
      [⟨1, 2, 3, none⟩] [⟨7, none, 0, 0⟩] 15 20 ⟨7, none, 0, 0⟩
      (by decide) (by decide)
      (fun r h => absurd h (by
        intro hmem
        have hlog : (assignLoop (fun _ _ => 0) (fun _ => some ((1 : ℚ), (1 : ℚ)))
            [⟨1, 2, 3, none⟩] [⟨7, none, 0, 0⟩] 15 20).2 = [] := rfl
        rw [hlog] at hmem
        exact List.not_mem_nil _ hmem))⟩

/-! ### Sequencing-engine lemmas -/

lemma routeFromSorted_sequence (coords : Nat → Option Coord) (provider : Provider)
    (sorted_requests : List Request) :
    (routeFromSorted coords provider sorted_requests).sequence =
      if (seq_waypoints coords sorted_requests).length > 23
      then (all_stops coords sorted_requests).take 23
      else all_stops coords sorted_requests := by
  simp only [routeFromSorted, seq_waypoints]
  split
  · next h => rw [if_neg (by omega)]
  · next h =>
    cases hp : provider (if ((all_stops coords sorted_requests).map StopEvent.coords).length > 23
        then ((all_stops coords sorted_requests).map StopEvent.coords).take 23
        else (all_stops coords sorted_requests).map StopEvent.coords) <;> rfl

lemma routeFromSorted_waypoints (coords : Nat → Option Coord) (provider : Provider)
    (sorted_requests : List Request) :
    (routeFromSorted coords provider sorted_requests).waypoints =
      if (seq_waypoints coords sorted_requests).length > 23
      then (seq_waypoints coords sorted_requests).take 23
      else seq_waypoints coords sorted_requests := by
  simp only [routeFromSorted, seq_waypoints]
  split
  · next h => rw [if_neg (by omega)]
  · next h =>
    cases hp : provider (if ((all_stops coords sorted_requests).map StopEvent.coords).length > 23
        then ((all_stops coords sorted_requests).map StopEvent.coords).take 23
        else (all_stops coords sorted_requests).map StopEvent.coords) <;> rfl

lemma routeFromSorted_degraded (coords : Nat → Option Coord) (provider : Provider)
    (sorted_requests : List Request)
    (hp : provider (if (seq_waypoints coords sorted_requests).length > 23
        then (seq_waypoints coords sorted_requests).take 23
        else seq_waypoints coords sorted_requests) = none) :
    routeFromSorted coords provider sorted_requests =
      ⟨[], 0, 0,
        (if (seq_waypoints coords sorted_requests).length > 23
          then (seq_waypoints coords sorted_requests).take 23
          else seq_waypoints coords sorted_requests),
        (if (seq_waypoints coords sorted_requests).length > 23
          then (all_stops coords sorted_requests).take 23
          else all_stops coords sorted_requests)⟩ := by
  simp only [seq_waypoints] at hp
  simp only [routeFromSorted, seq_waypoints]
  split
  · next h => rw [if_neg (by omega), if_neg (by omega)]
  · next h => rw [hp]

lemma calculate_route_locally_ok (coords : Nat → Option Coord) (provider : Provider)
    (requests : List Request) (res : RouteResult)
    (h : calculate_route_locally coords provider requests = .ok res) :
    ∃ sorted_requests, sortAssigned requests = .ok sorted_requests
      ∧ res = routeFromSorted coords provider sorted_requests := by
  unfold calculate_route_locally at h
  by_cases hemp : requests.isEmpty
  · rw [if_pos hemp] at h
    injection h with h
    refine ⟨[], ?_, ?_⟩
    · rw [List.isEmpty_iff.mp hemp]; rfl
    · rw [← h]; rfl
  · rw [if_neg hemp] at h
    cases hs : sortAssigned requests with
    | error e => rw [hs] at h; simp [Except.map] at h
    | ok sorted =>
      rw [hs] at h
      simp only [Except.map] at h
      injection h with h
      exact ⟨sorted, rfl, h.symm⟩

/-- C10: in every Route Result the sequencing engine returns, the waypoint
list is the coordinate image of the Stop Event sequence: same length and,
index by index, `waypoints[i]` is `sequence[i]`'s coordinate — before and
after the 23-entry truncation (which takes the same number of entries
from both lists). -/
theorem C10_waypoint_sequence_alignment (coords : Nat → Option Coord)
    (provider : Provider) (requests : List Request) (res : RouteResult)
    (h : calculate_route_locally coords provider requests = .ok res) :
    res.waypoints.length = res.sequence.length
    ∧ res.waypoints = res.sequence.map StopEvent.coords := by
  obtain ⟨sorted, hs, rfl⟩ := calculate_route_locally_ok coords provider requests res h
  have hmain : (routeFromSorted coords provider sorted).waypoints
      = (routeFromSorted coords provider sorted).sequence.map StopEvent.coords := by
    rw [routeFromSorted_waypoints, routeFromSorted_sequence]
    by_cases h23 : (seq_waypoints coords sorted).length > 23
    · rw [if_pos h23, if_pos h23, List.map_take]
      rfl
    · rw [if_neg h23, if_neg h23]
      rfl
  exact ⟨by rw [hmain, List.length_map], hmain⟩

/-- C10 witness: a single fully-resolvable request. -/
theorem C10_waypoint_sequence_alignment_witness :
    calculate_route_locally (fun _ => some ((0 : ℚ), (0 : ℚ))) (fun _ => none)
        [⟨1, 0, 1, some 0⟩]
      = .ok ⟨[], 0, 0, [(0, 0), (0, 0)],
          [⟨.pickup, 1, 0, (0, 0), 0⟩, ⟨.dropoff, 1, 1, (0, 0), 100⟩]⟩
    ∧ ((⟨[], 0, 0, [(0, 0), (0, 0)],
          [⟨.pickup, 1, 0, (0, 0), 0⟩, ⟨.dropoff, 1, 1, (0, 0), 100⟩]⟩ : RouteResult).waypoints.length
        = (⟨[], 0, 0, [(0, 0), (0, 0)],
          [⟨.pickup, 1, 0, (0, 0), 0⟩, ⟨.dropoff, 1, 1, (0, 0), 100⟩]⟩ : RouteResult).sequence.length
      ∧ (⟨[], 0, 0, [(0, 0), (0, 0)],
          [⟨.pickup, 1, 0, (0, 0), 0⟩, ⟨.dropoff, 1, 1, (0, 0), 100⟩]⟩ : RouteResult).waypoints
        = (⟨[], 0, 0, [(0, 0), (0, 0)],
          [⟨.pickup, 1, 0, (0, 0), 0⟩, ⟨.dropoff, 1, 1, (0, 0), 100⟩]⟩ : RouteResult).sequence.map
            StopEvent.coords) :=
  ⟨rfl, C10_waypoint_sequence_alignment (fun _ => some ((0 : ℚ), (0 : ℚ))) (fun _ => none)
    [⟨1, 0, 1, some 0⟩] _ rfl⟩

/-- C8: every returned waypoint list has at most 23 entries, and when the
pre-truncation count exceeds 23, both the waypoint list and the Stop
Event sequence are exactly the first 23 entries of their pre-truncation
versions (trailing entries dropped, order preserved). -/
theorem C8_waypoint_cap (coords : Nat → Option Coord) (provider : Provider)
    (requests sorted_requests : List Request) (res : RouteResult)
    (hs : sortAssigned requests = .ok sorted_requests)
    (h : calculate_route_locally coords provider requests = .ok res) :
    res.waypoints.length ≤ 23
    ∧ ((seq_waypoints coords sorted_requests).length > 23 →
        res.waypoints = (seq_waypoints coords sorted_requests).take 23
        ∧ res.sequence = (all_stops coords sorted_requests).take 23) := by
  obtain ⟨sorted2, hs2, rfl⟩ := calculate_route_locally_ok coords provider requests res h
  rw [hs] at hs2
  injection hs2 with hs2
  subst hs2
  rw [routeFromSorted_waypoints, routeFromSorted_sequence]
  by_cases h23 : (seq_waypoints coords sorted_requests).length > 23
  · rw [if_pos h23, if_pos h23]
    refine ⟨?_, fun _ => ⟨rfl, rfl⟩⟩
    rw [List.length_take]
    exact min_le_left _ _
  · rw [if_neg h23, if_neg h23]
    exact ⟨by omega, fun hc => absurd hc h23⟩

/-- C8 witness: a single fully-resolvable request (two waypoints, below
the cap). -/
theorem C8_waypoint_cap_witness :
    sortAssigned [⟨1, 0, 1, some 0⟩] = .ok [⟨1, 0, 1, some 0⟩]
    ∧ calculate_route_locally (fun _ => some ((0 : ℚ), (0 : ℚ))) (fun _ => none)
        [⟨1, 0, 1, some 0⟩]
      = .ok ⟨[], 0, 0, [(0, 0), (0, 0)],
          [⟨.pickup, 1, 0, (0, 0), 0⟩, ⟨.dropoff, 1, 1, (0, 0), 100⟩]⟩
    ∧ ((⟨[], 0, 0, [(0, 0), (0, 0)],
          [⟨.pickup, 1, 0, (0, 0), 0⟩, ⟨.dropoff, 1, 1, (0, 0), 100⟩]⟩ : RouteResult).waypoints.length ≤ 23
      ∧ ((seq_waypoints (fun _ => some ((0 : ℚ), (0 : ℚ))) [⟨1, 0, 1, some 0⟩]).length > 23 →
          (⟨[], 0, 0, [(0, 0), (0, 0)],
            [⟨.pickup, 1, 0, (0, 0), 0⟩, ⟨.dropoff, 1, 1, (0, 0), 100⟩]⟩ : RouteResult).waypoints
            = (seq_waypoints (fun _ => some ((0 : ℚ), (0 : ℚ))) [⟨1, 0, 1, some 0⟩]).take 23
          ∧ (⟨[], 0, 0, [(0, 0), (0, 0)],
            [⟨.pickup, 1, 0, (0, 0), 0⟩, ⟨.dropoff, 1, 1, (0, 0), 100⟩]⟩ : RouteResult).sequence
            = (all_stops (fun _ => some ((0 : ℚ), (0 : ℚ))) [⟨1, 0, 1, some 0⟩]).take 23)) :=
  ⟨rfl, rfl, C8_waypoint_cap (fun _ => some ((0 : ℚ), (0 : ℚ))) (fun _ => none)
    [⟨1, 0, 1, some 0⟩] [⟨1, 0, 1, some 0⟩] _ rfl rfl⟩

/-- C7: whenever the route-geometry provider call fails on the (capped)
waypoint list, the local sequencing function still returns normally with
distance = duration = 0 and with exactly the waypoints and Stop Event
sequence computed before the provider call. -/
theorem C7_provider_failure_degrades (coords : Nat → Option Coord) (provider : Provider)
    (requests sorted_requests : List Request)
    (hs : sortAssigned requests = .ok sorted_requests)
    (hp : provider (if (seq_waypoints coords sorted_requests).length > 23
        then (seq_waypoints coords sorted_requests).take 23
        else seq_waypoints coords sorted_requests) = none) :
    calculate_route_locally coords provider requests =
      .ok ⟨[], 0, 0,
        (if (seq_waypoints coords sorted_requests).length > 23
          then (seq_waypoints coords sorted_requests).take 23
          else seq_waypoints coords sorted_requests),
        (if (seq_waypoints coords sorted_requests).length > 23
          then (all_stops coords sorted_requests).take 23
          else all_stops coords sorted_requests)⟩ := by
  unfold calculate_route_locally
  by_cases hemp : requests.isEmpty
  · rw [if_pos hemp]
    obtain rfl : sorted_requests = [] := by
      rw [List.isEmpty_iff.mp hemp] at hs
      have h0 : sortAssigned ([] : List Request) = .ok ([] : List Request) := rfl
      rw [h0] at hs
      injection hs with hs
      exact hs.symm
    rfl
  · rw [if_neg hemp, hs]
    show Except.ok (routeFromSorted coords provider sorted_requests) = _
    rw [routeFromSorted_degraded coords provider sorted_requests hp]

/-- C7 witness: a single fully-resolvable request and a provider that
always fails. -/
theorem C7_provider_failure_degrades_witness :
    sortAssigned [⟨1, 0, 1, some 0⟩] = .ok [⟨1, 0, 1, some 0⟩]
    ∧ ((fun _ => none : Provider)
        (if (seq_waypoints (fun _ => some ((0 : ℚ), (0 : ℚ))) [⟨1, 0, 1, some 0⟩]).length > 23
          then (seq_waypoints (fun _ => some ((0 : ℚ), (0 : ℚ))) [⟨1, 0, 1, some 0⟩]).take 23
          else seq_waypoints (fun _ => some ((0 : ℚ), (0 : ℚ))) [⟨1, 0, 1, some 0⟩]) = none)
    ∧ calculate_route_locally (fun _ => some ((0 : ℚ), (0 : ℚ))) (fun _ => none)
        [⟨1, 0, 1, some 0⟩]
      = .ok ⟨[], 0, 0,
          (if (seq_waypoints (fun _ => some ((0 : ℚ), (0 : ℚ))) [⟨1, 0, 1, some 0⟩]).length > 23
            then (seq_waypoints (fun _ => some ((0 : ℚ), (0 : ℚ))) [⟨1, 0, 1, some 0⟩]).take 23
            else seq_waypoints (fun _ => some ((0 : ℚ), (0 : ℚ))) [⟨1, 0, 1, some 0⟩]),
          (if (seq_waypoints (fun _ => some ((0 : ℚ), (0 : ℚ))) [⟨1, 0, 1, some 0⟩]).length > 23
            then (all_stops (fun _ => some ((0 : ℚ), (0 : ℚ))) [⟨1, 0, 1, some 0⟩]).take 23
            else all_stops (fun _ => some ((0 : ℚ), (0 : ℚ))) [⟨1, 0, 1, some 0⟩])⟩ :=
  ⟨rfl, rfl, C7_provider_failure_degrades (fun _ => some ((0 : ℚ), (0 : ℚ))) (fun _ => none)
    [⟨1, 0, 1, some 0⟩] [⟨1, 0, 1, some 0⟩] rfl rfl⟩

/-! ### Precedence (claim C2) -/

lemma pickup_order_fold_lower (coords : Nat → Option Coord) :
    ∀ (l : List Request) (k : Nat) (m : Nat → Option Nat) (rid b : Nat),
      (∃ v, m rid = some v ∧ b ≤ v) → b ≤ k →
      ∃ j, b ≤ j ∧
        ((List.enumFrom k l).foldl
          (fun (m : Nat → Option Nat) (p : Nat × Request) =>
            if (coords p.2.originStopId).isSome
            then Function.update m p.2.requestId (some p.1) else m) m) rid = some j := by
  intro l
  induction l with
  | nil =>
    rintro k m rid b ⟨v, hv, hbv⟩ _
    exact ⟨v, hbv, hv⟩
  | cons a tl ih =>
    rintro k m rid b ⟨v, hv, hbv⟩ hbk
    rw [List.enumFrom_cons, List.foldl_cons]
    refine ih (k + 1) _ rid b ?_ (le_trans hbk (Nat.le_succ k))
    dsimp only
    by_cases hres : (coords a.originStopId).isSome
    · rw [if_pos hres]
      by_cases hid : rid = a.requestId
      · exact ⟨k, by rw [Function.update_apply, if_pos hid], hbk⟩
      · exact ⟨v, by rw [Function.update_apply, if_neg hid]; exact hv, hbv⟩
    · rw [if_neg hres]
      exact ⟨v, hv, hbv⟩

lemma pickup_order_fold_ge (coords : Nat → Option Coord) :
    ∀ (l : List Request) (k : Nat) (m : Nat → Option Nat) (i : Nat) (r : Request),
      (i, r) ∈ List.enumFrom k l → (coords r.originStopId).isSome = true →
      ∃ j, i ≤ j ∧
        ((List.enumFrom k l).foldl
          (fun (m : Nat → Option Nat) (p : Nat × Request) =>
            if (coords p.2.originStopId).isSome
            then Function.update m p.2.requestId (some p.1) else m) m)
          r.requestId = some j := by
  intro l
  induction l with
  | nil =>
    intro k m i r h _
    simp [List.enumFrom] at h
  | cons a tl ih =>
    intro k m i r h hres
    rw [List.enumFrom_cons] at h
    rw [List.enumFrom_cons, List.foldl_cons]
    rcases List.mem_cons.mp h with heq | htl
    · have hik : i = k := congrArg Prod.fst heq
      have hra : r = a := congrArg Prod.snd heq
      subst hik
      subst hra
      refine pickup_order_fold_lower coords tl (i + 1) _ r.requestId i ?_ (Nat.le_succ i)
      dsimp only
      rw [if_pos hres]
      exact ⟨i, by rw [Function.update_apply, if_pos rfl], le_refl i⟩
    · exact ih (k + 1) _ i r htl hres

lemma pickup_order_ge (coords : Nat → Option Coord) (sorted_requests : List Request)
    (i : Nat) (r : Request) (h : (i, r) ∈ sorted_requests.enum)
    (hres : (coords r.originStopId).isSome = true) :
    ∃ j, i ≤ j ∧ pickup_order coords sorted_requests r.requestId = some j := by
  unfold pickup_order
  rw [List.enum_eq_enumFrom] at h ⊢
  exact pickup_order_fold_ge coords sorted_requests 0 (fun _ => none) i r h hres

lemma mem_pickupEvents (coords : Nat → Option Coord) (sorted_requests : List Request)
    (a : StopEvent) (ha : a ∈ pickupEvents coords sorted_requests) :
    a.type = .pickup ∧ ∃ i r, (i, r) ∈ sorted_requests.enum
      ∧ (coords r.originStopId).isSome = true
      ∧ a.requestId = r.requestId ∧ a.priority = i := by
  unfold pickupEvents at ha
  obtain ⟨p, hp, hmap⟩ := List.mem_filterMap.mp ha
  obtain ⟨c, hc, hmk⟩ := Option.map_eq_some'.mp hmap
  subst hmk
  exact ⟨rfl, p.1, p.2, hp, by rw [hc]; rfl, rfl, rfl⟩

lemma mem_dropoffEvents (coords : Nat → Option Coord) (sorted_requests : List Request)
    (b : StopEvent) (hb : b ∈ dropoffEvents coords sorted_requests) :
    b.type = .dropoff ∧ ∃ r ∈ sorted_requests, b.requestId = r.requestId
      ∧ b.priority = (pickup_order coords sorted_requests r.requestId).getD 999 + 100 := by
  unfold dropoffEvents at hb
  obtain ⟨r, hr, hmap⟩ := List.mem_filterMap.mp hb
  obtain ⟨c, hc, hmk⟩ := Option.map_eq_some'.mp hmap
  subst hmk
  exact ⟨rfl, r, hr, rfl, rfl⟩

lemma pickup_lt_dropoff_priority (coords : Nat → Option Coord)
    (sorted_requests : List Request) (a b : StopEvent)
    (ha : a ∈ pickupEvents coords sorted_requests)
    (hb : b ∈ dropoffEvents coords sorted_requests)
    (hid : a.requestId = b.requestId) : a.priority < b.priority := by
  obtain ⟨-, i, r, hmem, hres, haid, hapri⟩ := mem_pickupEvents coords sorted_requests a ha
  obtain ⟨-, r2, hr2mem, hbid, hbpri⟩ := mem_dropoffEvents coords sorted_requests b hb
  obtain ⟨j, hij, hj⟩ := pickup_order_ge coords sorted_requests i r hmem hres
  have hr2id : r2.requestId = r.requestId := by rw [← hbid, ← hid, haid]
  rw [hbpri, hr2id, hj, hapri]
  simp only [Option.getD_some]
  omega

lemma all_stops_sorted (coords : Nat → Option Coord) (sorted_requests : List Request) :
    List.Sorted (fun a b : StopEvent => a.priority ≤ b.priority)
      (all_stops coords sorted_requests) := by
  unfold all_stops
  haveI : IsTotal StopEvent (fun a b => a.priority ≤ b.priority) :=
    ⟨fun a b => le_total _ _⟩
  haveI : IsTrans StopEvent (fun a b => a.priority ≤ b.priority) :=
    ⟨fun a b c h1 h2 => le_trans h1 h2⟩
  exact List.sorted_insertionSort _ _

lemma all_stops_pickup_before_dropoff (coords : Nat → Option Coord)
    (sorted_requests : List Request) (i j : Nat) (a b : StopEvent)
    (hia : (all_stops coords sorted_requests)[i]? = some a)
    (hjb : (all_stops coords sorted_requests)[j]? = some b)
    (hta : a.type = .pickup) (htb : b.type = .dropoff)
    (hid : a.requestId = b.requestId) : i < j := by
  obtain ⟨hilt, hia'⟩ := List.getElem?_eq_some.mp hia
  obtain ⟨hjlt, hjb'⟩ := List.getElem?_eq_some.mp hjb
  have hperm := List.perm_insertionSort (fun a b : StopEvent => a.priority ≤ b.priority)
    (pickupEvents coords sorted_requests ++ dropoffEvents coords sorted_requests)
  have hamem : a ∈ pickupEvents coords sorted_requests := by
    have h1 : a ∈ all_stops coords sorted_requests := hia' ▸ List.getElem_mem hilt
    unfold all_stops at h1
    rcases List.mem_append.mp (hperm.mem_iff.mp h1) with h3 | h3
    · exact h3
    · have := (mem_dropoffEvents coords sorted_requests a h3).1
      rw [hta] at this
      exact absurd this (by simp)
  have hbmem : b ∈ dropoffEvents coords sorted_requests := by
    have h1 : b ∈ all_stops coords sorted_requests := hjb' ▸ List.getElem_mem hjlt
    unfold all_stops at h1
    rcases List.mem_append.mp (hperm.mem_iff.mp h1) with h3 | h3
    · have := (mem_pickupEvents coords sorted_requests b h3).1
      rw [htb] at this
      exact absurd this (by simp)
    · exact h3
  have hlt := pickup_lt_dropoff_priority coords sorted_requests a b hamem hbmem hid
  by_contra hij
  push_neg at hij
  rcases eq_or_lt_of_le hij with heq | hji
  · subst heq
    rw [hia'] at hjb'
    rw [hjb'] at hta
    rw [hta] at htb
    exact absurd htb (by simp)
  · have hpw := List.pairwise_iff_getElem.mp (all_stops_sorted coords sorted_requests)
      j i hjlt hilt hji
    rw [hia', hjb'] at hpw
    omega

/-- C2: in every sequence the sequencing engine returns, a request's
pickup Stop Event is placed strictly before that same request's dropoff
Stop Event.  (Only per-request precedence: pickups and dropoffs of
different requests interleave by numeric priority.) -/
theorem C2_pickup_precedes_dropoff (coords : Nat → Option Coord) (provider : Provider)
    (requests : List Request) (res : RouteResult)
    (h : calculate_route_locally coords provider requests = .ok res)
    (i j : Nat) (a b : StopEvent)
    (hia : res.sequence[i]? = some a) (hjb : res.sequence[j]? = some b)
    (hta : a.type = .pickup) (htb : b.type = .dropoff)
    (hid : a.requestId = b.requestId) : i < j := by
  obtain ⟨sorted, hs, rfl⟩ := calculate_route_locally_ok coords provider requests res h
  rw [routeFromSorted_sequence] at hia hjb
  by_cases h23 : (seq_waypoints coords sorted).length > 23
  · rw [if_pos h23, List.getElem?_take] at hia hjb
    by_cases hi23 : i < 23
    · rw [if_pos hi23] at hia
      by_cases hj23 : j < 23
      · rw [if_pos hj23] at hjb
        exact all_stops_pickup_before_dropoff coords sorted i j a b hia hjb hta htb hid
      · rw [if_neg hj23] at hjb
        exact absurd hjb (by simp)
    · rw [if_neg hi23] at hia
      exact absurd hia (by simp)
  · rw [if_neg h23] at hia hjb
    exact all_stops_pickup_before_dropoff coords sorted i j a b hia hjb hta htb hid

/-- C2 witness: one fully-resolvable request; its pickup sits at index 0
and its dropoff at index 1 of the returned sequence. -/
theorem C2_pickup_precedes_dropoff_witness :
    calculate_route_locally (fun _ => some ((0 : ℚ), (0 : ℚ))) (fun _ => none)
        [⟨1, 0, 1, some 0⟩]
      = .ok ⟨[], 0, 0, [(0, 0), (0, 0)],
          [⟨.pickup, 1, 0, (0, 0), 0⟩, ⟨.dropoff, 1, 1, (0, 0), 100⟩]⟩
    ∧ (0 : Nat) < 1 := by
  have h : calculate_route_locally (fun _ => some ((0 : ℚ), (0 : ℚ))) (fun _ => none)
      [⟨1, 0, 1, some 0⟩]
      = .ok ⟨[], 0, 0, [(0, 0), (0, 0)],
          [⟨.pickup, 1, 0, (0, 0), 0⟩, ⟨.dropoff, 1, 1, (0, 0), 100⟩]⟩ := rfl
  exact ⟨h, C2_pickup_precedes_dropoff (fun _ => some ((0 : ℚ), (0 : ℚ))) (fun _ => none)
    [⟨1, 0, 1, some 0⟩] _ h 0 1 ⟨.pickup, 1, 0, (0, 0), 0⟩ ⟨.dropoff, 1, 1, (0, 0), 100⟩
    rfl rfl rfl rfl rfl⟩

end RouteOpt
